import Mathlib

/-!
Verification of libpaxos-cpp against its natural-language specification.

The definitions below shallowly embed the relevant parts of the source:

* `src/paxos++/client.cpp` — the client retry layer (`client::send`,
  `client::do_request` and the two lambdas inside it);
* `src/paxos++/detail/tcp_connection.cpp` — the per-connection write
  queue (`tcp_connection::write`, `start_write`, `handle_write`);
* `src/unnamed/part_001` (`detail/protocol/protocol.cpp`) — the heartbeat
  driver and the framed command transport (`protocol::heartbeat`,
  `protocol::write_command`, `protocol::read_command_parse_size`,
  `protocol::read_command_parse_command`, `protocol::handle_command`).

Machine integers are modelled as `Nat` with explicit truncation where the
source uses fixed-width types (the `uint32_t` frame length).  Asynchronous
code is modelled by explicit traces of the actions a handler performs and,
for the connection, by a step function over an explicit state.  Parts of the
repository that are referenced but not present under `src/` (the quorum
implementation, the command serialization, the byte-order helper, the
dispatch entry `initiate_request::step1`, the catch site for protocol
errors) are modelled from the spec; each such definition says so in its doc
comment.
-/

namespace LibPaxos

/-! ## Byte-array conversion (`util::conversion`) -/

/-- Modelled from the spec: `util::conversion::to_byte_array` for a
`uint32_t` (the helper is not under `src/`, and the spec leaves the byte
order an open question, requiring only one pinned convention); we pin
little-endian.  The four bytes of `n` taken modulo `2 ^ 32`. -/
def to_byte_array (n : Nat) : List Nat :=
  [n % 256, n / 256 % 256, n / 65536 % 256, n / 16777216 % 256]

/-- Modelled from the spec: `util::conversion::from_byte_array <uint32_t>`,
inverse direction of [to_byte_array], reading the first four bytes
little-endian. -/
def from_byte_array (l : List Nat) : Nat :=
  match l with
  | b0 :: b1 :: b2 :: b3 :: _ => b0 + 256 * b1 + 65536 * b2 + 16777216 * b3
  | _ => 0

theorem to_byte_array_length (n : Nat) : (to_byte_array n).length = 4 := rfl

theorem from_byte_array_to_byte_array (n : Nat) :
    from_byte_array (to_byte_array n) = n % 2 ^ 32 := by
  simp only [to_byte_array, from_byte_array]
  omega

/-! ## Commands -/

/-- The command type discriminator (`detail::command`, spec section 3). -/
inductive CommandType
  | handshake_start
  | handshake_response
  | leader_claim
  | leader_announce
  | request_initiate
  | prepare
  | promise_reply
  | accept
  | accepted
  | request_response
  | error_report
deriving DecidableEq, Repr

def CommandType.toCode : CommandType → Nat
  | .handshake_start => 0
  | .handshake_response => 1
  | .leader_claim => 2
  | .leader_announce => 3
  | .request_initiate => 4
  | .prepare => 5
  | .promise_reply => 6
  | .accept => 7
  | .accepted => 8
  | .request_response => 9
  | .error_report => 10

def CommandType.ofCode : Nat → CommandType
  | 0 => .handshake_start
  | 1 => .handshake_response
  | 2 => .leader_claim
  | 3 => .leader_announce
  | 4 => .request_initiate
  | 5 => .prepare
  | 6 => .promise_reply
  | 7 => .accept
  | 8 => .accepted
  | 9 => .request_response
  | _ => .error_report

theorem CommandType.ofCode_toCode (t : CommandType) :
    CommandType.ofCode t.toCode = t := by
  cases t <;> rfl

/-- A command: a type discriminator plus an uninterpreted workload (spec section 3:
"a tagged message with a type discriminator and an uninterpreted payload").  Bytes
are modelled as natural numbers. -/
structure Command where
  type : CommandType
  workload : List Nat
deriving DecidableEq, Repr

/-- Modelled from the spec: `command::to_string` (boost serialization, not
under `src/`).  Spec section 3: the body carries the type discriminator and
the type-specific payload; we serialize as the discriminator byte followed
by the workload bytes. -/
def Command.to_string (c : Command) : List Nat :=
  c.type.toCode :: c.workload

/-- Modelled from the spec: `command::from_string`, inverse of
[Command.to_string]. -/
def Command.from_string (l : List Nat) : Command :=
  match l with
  | [] => ⟨CommandType.error_report, []⟩
  | t :: w => ⟨CommandType.ofCode t, w⟩

theorem Command.from_string_to_string (c : Command) :
    Command.from_string (Command.to_string c) = c := by
  simp [Command.to_string, Command.from_string, CommandType.ofCode_toCode]

/-! ## Framing: `protocol::write_command` and the read path -/

/-- Embeds `protocol::write_command` (`src/unnamed/part_001`, lines 155-166):
serialize the command, truncate its length to `uint32_t`
(`uint32_t size = binary_string.size ()`), and emit the 4-byte length
followed by the body. -/
def write_command (c : Command) : List Nat :=
  let binary_string := Command.to_string c
  let size := binary_string.length % 2 ^ 32
  to_byte_array size ++ binary_string

/-- The actions a read-path handler can perform. -/
inductive ReadAction
  | allocAndRead (n : Nat)
  | cancelTimeout
  | invokeCallback (c : Command)
  | closeConnection
  | markPeerDead
deriving DecidableEq, Repr

/-- Embeds `protocol::read_command_parse_size` (`src/unnamed/part_001`,
lines 208-241): on a transport error it logs and returns; otherwise it
decodes the 4-byte length (`bytes_raw` is the first 4 bytes of the
buffer), allocates a buffer of that many bytes and issues an `async_read`
for it.  There is no size check of any kind in the source. -/
def read_command_parse_size (error : Bool) (bytes_buffer : List Nat) :
    List ReadAction :=
  if error then []
  else
    let bytes_raw := bytes_buffer.take 4
    let bytes := from_byte_array bytes_raw
    [ReadAction.allocAndRead bytes]

/-- Embeds `protocol::read_command_parse_command` (`src/unnamed/part_001`,
lines 243-266): it first cancels the connection timeout, then on a
transport error it logs and returns; otherwise it rebuilds the command
from the first `bytes_transferred` bytes of the buffer and invokes the
stored callback on it. -/
def read_command_parse_command (error : Bool) (buffer : List Nat)
    (bytes_transferred : Nat) : List ReadAction :=
  ReadAction.cancelTimeout ::
    (if error then []
     else [ReadAction.invokeCallback
             (Command.from_string (buffer.take bytes_transferred))])

/-- Modelled from the spec: the fixed maximum frame size (spec sections 4.1
and 6: implementation-chosen, at least 16 MiB).  The source under `src/`
defines no such constant; this is the spec minimum, 16 MiB. -/
def maximum_frame_size : Nat := 2 ^ 24

/-- The composed error-free read path over a byte stream, as executed by
`protocol::read_command` (reads 4 bytes), `read_command_parse_size`
(decodes the length and issues a read of that many body bytes) and
`read_command_parse_command` (rebuilds the command); `none` when the
stream is too short for the reads to complete. -/
def read_frame (stream : List Nat) : Option Command :=
  if 4 ≤ stream.length then
    match read_command_parse_size false (stream.take 4) with
    | [ReadAction.allocAndRead n] =>
        if n ≤ (stream.drop 4).length then
          match read_command_parse_command false ((stream.drop 4).take n) n with
          | [ReadAction.cancelTimeout, ReadAction.invokeCallback c] => some c
          | _ => none
        else none
    | _ => none
  else none

/-! ## The client retry layer (`client::send` / `client::do_request`) -/

/-- Error codes reported by the round layer to the per-request callback
(the `boost::optional <enum error_code>` argument).  The concrete
enumeration lives outside `src/`; this development only distinguishes the
code reporting that the quorum is not ready (Modelled from the spec,
section 4.6: a dispatch that finds no leader known reports a not-ready
condition) from every other error. -/
inductive ErrorCode
  | no_leader
  | other
deriving DecidableEq, Repr

/-- The ways the one-shot promise of `client::send` can be resolved.
`set_exception_not_ready` is named by the spec (and by the repository test
`src/test/connection_close1.cpp`) but, as proved below, is never produced
by the code in `src/paxos++/client.cpp`. -/
inductive Fulfillment
  | set_value (response : List Nat)
  | set_exception_request_error
  | set_exception_not_ready
deriving DecidableEq, Repr

/-- The single action the response lambda of `client::do_request` performs. -/
inductive ClientAction
  | scheduleRetryTimer (delay_ms : Nat) (retries_after : Nat)
  | fulfill (f : Fulfillment)
deriving DecidableEq, Repr

/-- Embeds the response lambda inside `client::do_request`
(`src/paxos++/client.cpp`, lines 99-169): on an error with retries left it
arms a 500 ms deadline timer whose handler will re-attempt with
`retries - 1`; on an error with no retries left it sets the
`request_error` exception; with no error it sets the response value.
Every error code is treated alike. -/
def on_response (retries : Nat) (error : Option ErrorCode)
    (response : List Nat) : ClientAction :=
  match error with
  | some _ =>
      if 0 < retries then ClientAction.scheduleRetryTimer 500 (retries - 1)
      else ClientAction.fulfill Fulfillment.set_exception_request_error
  | none => ClientAction.fulfill (Fulfillment.set_value response)

/-- Embeds the timer lambda inside `client::do_request`
(`src/paxos++/client.cpp`, lines 134-151): when the wait completes without
error, `do_request` is re-run with `retries - 1` (returned here as the
count to re-run with); when the wait reports an error — the timer was
cancelled — the handler does nothing at all. -/
def on_timer (timer_error : Bool) (retries_after : Nat) : Option Nat :=
  if timer_error then none else some retries_after

/-- The full execution of one `client::send` request, recursing exactly as
`client::do_request` does.  `results k` is the `(error, response)` pair the
round layer reports to the callback of the k-th attempt; `cancelled k`
tells whether the k-th backoff timer's wait completes with a cancellation
error.  The returned trace lists the actions taken on the promise and the
timers, in order. -/
def do_request (results : Nat → Option ErrorCode × List Nat)
    (cancelled : Nat → Bool) (attempt : Nat) : Nat → List ClientAction
  | 0 =>
      match (results attempt).1 with
      | some _ => [ClientAction.fulfill Fulfillment.set_exception_request_error]
      | none => [ClientAction.fulfill (Fulfillment.set_value (results attempt).2)]
  | r + 1 =>
      match (results attempt).1 with
      | some _ =>
          ClientAction.scheduleRetryTimer 500 r ::
            (match cancelled attempt with
             | true => []
             | false => do_request results cancelled (attempt + 1) r)
      | none => [ClientAction.fulfill (Fulfillment.set_value (results attempt).2)]

theorem do_request_zero (results : Nat → Option ErrorCode × List Nat)
    (cancelled : Nat → Bool) (attempt : Nat) :
    do_request results cancelled attempt 0 =
      match (results attempt).1 with
      | some _ => [ClientAction.fulfill Fulfillment.set_exception_request_error]
      | none => [ClientAction.fulfill (Fulfillment.set_value (results attempt).2)] :=
  rfl

theorem do_request_succ (results : Nat → Option ErrorCode × List Nat)
    (cancelled : Nat → Bool) (attempt r : Nat) :
    do_request results cancelled attempt (r + 1) =
      match (results attempt).1 with
      | some _ =>
          ClientAction.scheduleRetryTimer 500 r ::
            (match cancelled attempt with
             | true => []
             | false => do_request results cancelled (attempt + 1) r)
      | none => [ClientAction.fulfill (Fulfillment.set_value (results attempt).2)] :=
  rfl

/-- `do_request` takes, at each level, exactly the action `on_response`
prescribes, and follows the timer only as `on_timer` prescribes: the trace
decomposes through the two embedded lambdas. -/
theorem do_request_eq_on_response (results : Nat → Option ErrorCode × List Nat)
    (cancelled : Nat → Bool) (attempt r : Nat) :
    do_request results cancelled attempt r =
      match on_response r (results attempt).1 (results attempt).2 with
      | ClientAction.fulfill f => [ClientAction.fulfill f]
      | ClientAction.scheduleRetryTimer d r2 =>
          ClientAction.scheduleRetryTimer d r2 ::
            (match on_timer (cancelled attempt) r2 with
             | none => []
             | some r3 => do_request results cancelled (attempt + 1) r3) := by
  match r with
  | 0 =>
      rw [do_request_zero]
      rcases h : (results attempt).1 with _ | e <;> simp [on_response]
  | r + 1 =>
      rw [do_request_succ]
      rcases h : (results attempt).1 with _ | e
      · simp [on_response]
      · simp only [on_response, Nat.zero_lt_succ, if_pos, Nat.add_sub_cancel,
          on_timer]
        rcases hc : cancelled attempt with _ | _ <;> simp

/-- The promise resolutions appearing in a trace. -/
def fulfillments (tr : List ClientAction) : List Fulfillment :=
  tr.filterMap (fun a =>
    match a with
    | ClientAction.fulfill f => some f
    | _ => none)

theorem fulfillments_do_request_le_one
    (results : Nat → Option ErrorCode × List Nat) (cancelled : Nat → Bool)
    (attempt r : Nat) :
    (fulfillments (do_request results cancelled attempt r)).length ≤ 1 := by
  induction r generalizing attempt with
  | zero =>
      rw [do_request_zero]
      rcases h : (results attempt).1 with _ | e <;> simp [fulfillments]
  | succ r ih =>
      rw [do_request_succ]
      rcases h : (results attempt).1 with _ | e
      · simp [fulfillments]
      · rcases hc : cancelled attempt with _ | _
        · simpa [fulfillments] using ih (attempt + 1)
        · simp [fulfillments]

theorem fulfillments_do_request_of_no_cancel
    (results : Nat → Option ErrorCode × List Nat) (cancelled : Nat → Bool)
    (hc : ∀ k, cancelled k = false) (attempt r : Nat) :
    (fulfillments (do_request results cancelled attempt r)).length = 1 := by
  induction r generalizing attempt with
  | zero =>
      rw [do_request_zero]
      rcases h : (results attempt).1 with _ | e <;> simp [fulfillments]
  | succ r ih =>
      rw [do_request_succ]
      rcases h : (results attempt).1 with _ | e
      · simp [fulfillments]
      · rw [hc attempt]
        simpa [fulfillments] using ih (attempt + 1)

/-! ## Command dispatch (`protocol::handle_command`) -/

/-- The one protocol-level error the dispatcher can raise
(`exception::protocol_error`, thrown by `PAXOS_THROW`). -/
inductive ProtocolError
  | protocol_error
deriving DecidableEq, Repr

/-- Actions of the dispatcher and of the layer around it. -/
inductive DispatchAction
  | toHandshake
  | toElectLeader
  | toAnnounceLeadership
  | reissueRead
  | closeConnection
  | markPeerDead
deriving DecidableEq, Repr

/-- Embeds `protocol::handle_command` (`src/unnamed/part_001`, lines
118-152): dispatch on the command type to the handshake, leader-election
or leader-announcement handler and then re-issue `read_command` on the
connection; any other type throws `protocol_error`, so the trailing
`read_command` call is skipped. -/
def handle_command (c : Command) : Except ProtocolError (List DispatchAction) :=
  match c.type with
  | CommandType.handshake_start =>
      Except.ok [DispatchAction.toHandshake, DispatchAction.reissueRead]
  | CommandType.leader_claim =>
      Except.ok [DispatchAction.toElectLeader, DispatchAction.reissueRead]
  | CommandType.leader_announce =>
      Except.ok [DispatchAction.toAnnounceLeadership, DispatchAction.reissueRead]
  | _ => Except.error ProtocolError.protocol_error

/-- Modelled from the spec: the layer around the dispatcher that catches
protocol errors (spec section 7: "Protocol errors close the offending
connection and mark the peer dead"); the catch site is not under `src/`.
The function is total: the error is absorbed, never re-raised. -/
def handle_command_caught (c : Command) : List DispatchAction :=
  match handle_command c with
  | Except.ok acts => acts
  | Except.error _ => [DispatchAction.closeConnection, DispatchAction.markPeerDead]

/-! ## The heartbeat driver (`protocol::heartbeat`) -/

/-- The slice of the quorum state the heartbeat driver consults.  The
quorum implementation is not under `src/`; the two predicates are taken as
state fields (spec section 4.2). -/
structure QuorumState where
  needs_new_leader : Bool
  we_are_the_leader : Bool
deriving DecidableEq, Repr

/-- Modelled from the spec: `quorum::reset_state` clears the leader
designation and returns all peers to unknown (spec section 4.2);
`quorum.cpp` is not under `src/`.  With no leader set, a new leader is
needed and we are not the leader. -/
def reset_state (_q : QuorumState) : QuorumState :=
  { needs_new_leader := true, we_are_the_leader := false }

/-- Modelled from the spec: `paxos::configuration::heartbeat_interval`
(spec sections 4.3 and 6: default 3 s); `configuration.hpp` is not under
`src/`.  In milliseconds, as used by the timer in the source. -/
def heartbeat_interval : Nat := 3000

/-- The actions one heartbeat tick performs. -/
inductive HeartbeatAction
  | startHandshake
  | resetState
  | startElection
  | announceLeadership
  | scheduleNextTick (ms : Nat)
deriving DecidableEq, Repr

/-- Embeds `protocol::heartbeat` (`src/unnamed/part_001`, lines 56-85),
statement by statement: start the handshake sweep; if
`quorum_.needs_new_leader ()` then `quorum_.reset_state ()` and start the
election; if `quorum_.we_are_the_leader ()` (evaluated on the possibly
reset state) then start the leadership announcement; finally arm the
heartbeat timer for `heartbeat_interval` milliseconds.  Returns the action
trace in program order together with the resulting quorum state. -/
def heartbeat (q : QuorumState) : List HeartbeatAction × QuorumState :=
  let acts1 : List HeartbeatAction := [HeartbeatAction.startHandshake]
  let (acts2, q2) :=
    if q.needs_new_leader then
      ([HeartbeatAction.resetState, HeartbeatAction.startElection], reset_state q)
    else ([], q)
  let acts3 :=
    if q2.we_are_the_leader then [HeartbeatAction.announceLeadership] else []
  (acts1 ++ acts2 ++ acts3 ++ [HeartbeatAction.scheduleNextTick heartbeat_interval],
   q2)

/-! ## The per-connection write queue (`tcp_connection`) -/

/-- The state of one connection's outbound side.  `write_buffer` is the
`write_buffer_` string of `tcp_connection`; `pending` holds the sizes of
the buffers handed to `async_write` calls still outstanding, in order of
initiation (the `boost::asio::buffer (write_buffer_)` object captures the
buffer's current size); `sent` is the byte sequence the peer has observed
so far. -/
structure ConnState where
  write_buffer : List Nat
  pending : List Nat
  sent : List Nat
deriving DecidableEq, Repr

/-- Embeds `tcp_connection::start_write`
(`src/paxos++/detail/tcp_connection.cpp`, lines 72-83): issue an
`async_write` of the whole current `write_buffer_`. -/
def start_write (s : ConnState) : ConnState :=
  { s with pending := s.pending ++ [s.write_buffer.length] }

/-- Embeds `tcp_connection::write` (`src/paxos++/detail/tcp_connection.cpp`,
lines 44-70): if the outbound buffer is empty, copy the message into it
and start a write; otherwise just append the message to the buffer. -/
def tcp_write (s : ConnState) (message : List Nat) : ConnState :=
  if s.write_buffer.isEmpty then
    start_write { s with write_buffer := message }
  else
    { s with write_buffer := s.write_buffer ++ message }

/-- Embeds `tcp_connection::handle_write`
(`src/paxos++/detail/tcp_connection.cpp`, lines 85-102): drop the
transferred bytes from the buffer (`substr (bytes_transferred)`) and, if
unsent bytes remain, start the next write. -/
def handle_write (s : ConnState) (bytes_transferred : Nat) : ConnState :=
  let s2 := { s with write_buffer := s.write_buffer.drop bytes_transferred }
  if s2.write_buffer.isEmpty then s2 else start_write s2

/-- Events on one connection: a call to `tcp_connection::write`, or
completion of the oldest outstanding `async_write` with some transferred
byte count. -/
inductive ConnEvent
  | write (message : List Nat)
  | complete (bytes_transferred : Nat)
deriving DecidableEq, Repr

/-- One event step.  A completion consumes the oldest outstanding
`async_write`: asio reports at most as many transferred bytes as the size
of the buffer handed to that call, the transferred bytes become visible to
the peer, and `handle_write` runs.  With no outstanding write, no
completion handler exists and the event is a no-op. -/
def conn_step (s : ConnState) : ConnEvent → ConnState
  | ConnEvent.write m => tcp_write s m
  | ConnEvent.complete n =>
      match s.pending with
      | [] => s
      | size :: rest =>
          let k := min n size
          handle_write
            { s with sent := s.sent ++ s.write_buffer.take k, pending := rest } k

def conn_init : ConnState := ⟨[], [], []⟩

def conn_run (events : List ConnEvent) : ConnState :=
  events.foldl conn_step conn_init

/-- The messages handed to `tcp_connection::write` in an event trace, in
call order. -/
def written_messages (events : List ConnEvent) : List (List Nat) :=
  events.filterMap (fun e =>
    match e with
    | ConnEvent.write m => some m
    | _ => none)

/-- The connection invariant: with nothing outstanding the buffer is
empty; with one outstanding `async_write` its buffer size is positive and
no larger than the current outbound buffer; more than one outstanding
`async_write` is impossible. -/
def conn_inv (s : ConnState) : Prop :=
  match s.pending with
  | [] => s.write_buffer = []
  | [size] => 0 < size ∧ size ≤ s.write_buffer.length
  | _ => False

theorem conn_inv_init : conn_inv conn_init := by
  simp [conn_inv, conn_init]

/-- The payload of a `write` event, if any. -/
def event_message : ConnEvent → List Nat
  | ConnEvent.write m => m
  | ConnEvent.complete _ => []

theorem conn_step_preserves (s : ConnState) (e : ConnEvent)
    (hs : conn_inv s) (he : ∀ m, e = ConnEvent.write m → m ≠ []) :
    conn_inv (conn_step s e) ∧
      (conn_step s e).sent ++ (conn_step s e).write_buffer =
        s.sent ++ s.write_buffer ++ event_message e := by
  rcases e with m | n
  case write =>
    have hm : m ≠ [] := he m rfl
    rcases hp : s.pending with _ | ⟨size, _ | ⟨size2, rest2⟩⟩
    · have hbuf : s.write_buffer = [] := by
        simpa [conn_inv, hp] using hs
      refine ⟨?_, ?_⟩
      · simp [conn_step, tcp_write, hbuf, start_write, conn_inv, hp,
          List.length_pos, hm]
      · simp [conn_step, tcp_write, hbuf, start_write, event_message]
    · have hsz : 0 < size ∧ size ≤ s.write_buffer.length := by
        simpa [conn_inv, hp] using hs
      have hbuf : s.write_buffer.isEmpty = false := by
        rcases hb : s.write_buffer with _ | ⟨a, l⟩
        · rw [hb] at hsz; simp at hsz; omega
        · simp
      refine ⟨?_, ?_⟩
      · simp only [conn_step, tcp_write, hbuf, Bool.false_eq_true, ite_false,
          conn_inv, hp, List.length_append]
        omega
      · simp [conn_step, tcp_write, hbuf, event_message, List.append_assoc]
    · exact absurd hs (by simp [conn_inv, hp])
  case complete =>
    rcases hp : s.pending with _ | ⟨size, _ | ⟨size2, rest2⟩⟩
    · have hbuf : s.write_buffer = [] := by
        simpa [conn_inv, hp] using hs
      refine ⟨?_, ?_⟩
      · simpa [conn_step, hp] using hs
      · simp [conn_step, hp, event_message]
    · have hsz : 0 < size ∧ size ≤ s.write_buffer.length := by
        simpa [conn_inv, hp] using hs
      refine ⟨?_, ?_⟩
      · by_cases hrem : (s.write_buffer.drop (min n size)).isEmpty
        · simp only [conn_step, hp, handle_write, hrem, if_pos, conn_inv]
          simpa [List.isEmpty_iff] using hrem
        · simp only [conn_step, hp, handle_write, hrem, Bool.false_eq_true,
            ite_false, start_write, conn_inv]
          refine ⟨?_, le_refl _⟩
          rcases hb : s.write_buffer.drop (min n size) with _ | ⟨a, l⟩
          · exact absurd hb (by simpa [List.isEmpty_iff] using hrem)
          · simp [hb]
      · by_cases hrem : (s.write_buffer.drop (min n size)).isEmpty
        · simp only [conn_step, hp, handle_write, hrem, if_pos, event_message,
            List.append_nil, List.append_assoc]
          rw [List.take_append_drop]
        · simp only [conn_step, hp, handle_write, hrem, Bool.false_eq_true,
            ite_false, start_write, event_message, List.append_nil,
            List.append_assoc]
          rw [List.take_append_drop]
    · exact absurd hs (by simp [conn_inv, hp])

theorem conn_run_foldl_inv (events : List ConnEvent) :
    ∀ s : ConnState, conn_inv s →
      (∀ m ∈ written_messages events, m ≠ []) →
      conn_inv (events.foldl conn_step s) ∧
        (events.foldl conn_step s).sent ++
            (events.foldl conn_step s).write_buffer =
          s.sent ++ s.write_buffer ++ (written_messages events).flatten := by
  induction events with
  | nil => exact fun s hs _ => ⟨hs, by simp [written_messages]⟩
  | cons e rest ih =>
      intro s hs hmsgs
      have he : ∀ m, e = ConnEvent.write m → m ≠ [] := by
        intro m hm
        exact hmsgs m (by simp [written_messages, hm])
      have hstep := conn_step_preserves s e hs he
      have hrest : ∀ m ∈ written_messages rest, m ≠ [] := by
        intro m hm
        refine hmsgs m ?_
        simp only [written_messages, List.filterMap_cons] at hm ⊢
        rcases e with m2 | n2 <;> simp_all
      have := ih (conn_step s e) hstep.1 hrest
      refine ⟨by simpa using this.1, ?_⟩
      rcases e with m | n
      · simp only [List.foldl_cons] at *
        rw [this.2, hstep.2]
        simp [written_messages, event_message, List.filterMap_cons,
          List.append_assoc]
      · simp only [List.foldl_cons] at *
        rw [this.2, hstep.2]
        simp [written_messages, event_message, List.filterMap_cons,
          List.append_assoc]

theorem conn_inv_pending_le_one (s : ConnState) (hs : conn_inv s) :
    s.pending.length ≤ 1 := by
  rcases hp : s.pending with _ | ⟨a, _ | ⟨b, l⟩⟩
  · simp
  · simp
  · exact absurd hs (by simp [conn_inv, hp])

/-! ## Roundtrip helper for the read path -/

theorem read_frame_to_byte_array_append (body : List Nat)
    (h : body.length < 2 ^ 32) :
    read_frame (to_byte_array body.length ++ body)
      = some (Command.from_string body) := by
  have htake : (to_byte_array body.length ++ body).take 4
      = to_byte_array body.length := rfl
  have hdrop : (to_byte_array body.length ++ body).drop 4 = body := rfl
  have hlen : 4 ≤ (to_byte_array body.length ++ body).length := by
    rw [List.length_append, to_byte_array_length]
    omega
  have h1 : read_command_parse_size false (to_byte_array body.length)
      = [ReadAction.allocAndRead body.length] := by
    have h2 : (to_byte_array body.length).take 4 = to_byte_array body.length :=
      rfl
    show [ReadAction.allocAndRead
      (from_byte_array ((to_byte_array body.length).take 4))] = _
    rw [h2, from_byte_array_to_byte_array, Nat.mod_eq_of_lt h]
  have h3 : read_command_parse_command false body body.length
      = [ReadAction.cancelTimeout,
         ReadAction.invokeCallback (Command.from_string body)] := by
    simp [read_command_parse_command, List.take_length]
  simp [read_frame, hlen, htake, hdrop, h1, h3, List.take_length,
    to_byte_array_length, Nat.le_add_right]

/-! ## The claims -/

/-- C7: for every command whose serialized body fits a `uint32_t`,
`write_command` emits exactly a 4-byte length equal to the byte count of
the serialized body followed by that body, the emitted length decodes back
to the body's byte count, and the read path
(`read_command` / `read_command_parse_size` /
`read_command_parse_command`) parses the length, reads exactly that many
body bytes and reconstructs an equal command:
`decode (encode command) = command`. -/
theorem c7_encode_decode_roundtrip (c : Command)
    (h : (Command.to_string c).length < 2 ^ 32) :
    write_command c =
        to_byte_array (Command.to_string c).length ++ Command.to_string c
    ∧ (write_command c).take 4 = to_byte_array (Command.to_string c).length
    ∧ from_byte_array ((write_command c).take 4)
        = (Command.to_string c).length
    ∧ (write_command c).drop 4 = Command.to_string c
    ∧ read_frame (write_command c) = some c := by
  have hw : write_command c =
      to_byte_array (Command.to_string c).length ++ Command.to_string c := by
    show to_byte_array ((Command.to_string c).length % 2 ^ 32)
        ++ Command.to_string c = _
    rw [Nat.mod_eq_of_lt h]
  have htake : (write_command c).take 4
      = to_byte_array (Command.to_string c).length := by
    rw [hw]
    exact rfl
  have hdrop : (write_command c).drop 4 = Command.to_string c := by
    rw [hw]
    exact rfl
  refine ⟨hw, htake, ?_, hdrop, ?_⟩
  · rw [htake, from_byte_array_to_byte_array, Nat.mod_eq_of_lt h]
  · rw [hw, read_frame_to_byte_array_append (Command.to_string c) h,
      Command.from_string_to_string]

/-- Witness for `c7_encode_decode_roundtrip` at a concrete command. -/
theorem c7_encode_decode_roundtrip_witness :
    (Command.to_string ⟨CommandType.request_initiate, [102, 111, 111]⟩).length
        < 2 ^ 32
    ∧ read_frame (write_command ⟨CommandType.request_initiate, [102, 111, 111]⟩)
        = some ⟨CommandType.request_initiate, [102, 111, 111]⟩ :=
  ⟨by decide,
   (c7_encode_decode_roundtrip ⟨CommandType.request_initiate, [102, 111, 111]⟩
      (by decide)).2.2.2.2⟩

/-- C2 counterexample: at the concrete length `2 ^ 24 + 1` — one byte above
the 16 MiB maximum frame size — `read_command_parse_size` on an error-free
completion produces exactly an allocation of a buffer of that length and a
read for that many bytes; in particular it neither rejects the frame nor
closes the connection nor marks the peer dead, contrary to the claim. -/
theorem c2_oversized_frame_counterexample :
    maximum_frame_size < 2 ^ 24 + 1
    ∧ read_command_parse_size false (to_byte_array (2 ^ 24 + 1))
        = [ReadAction.allocAndRead (2 ^ 24 + 1)]
    ∧ ReadAction.allocAndRead (2 ^ 24 + 1) ∈
        read_command_parse_size false (to_byte_array (2 ^ 24 + 1)) := by
  have h1 : read_command_parse_size false (to_byte_array (2 ^ 24 + 1))
      = [ReadAction.allocAndRead (2 ^ 24 + 1)] := by decide
  refine ⟨by norm_num [maximum_frame_size], h1, ?_⟩
  rw [h1]
  exact List.mem_singleton.mpr rfl

/-- C2 amended: `read_command_parse_size` enforces no maximum frame size at
all — on every error-free completion it allocates a buffer of the decoded
4-byte length and issues a read for exactly that many bytes, whatever the
value; its action trace is exactly that single read, so the connection is
never closed and the peer never marked dead here. -/
theorem c2_amended_no_size_limit (bytes_buffer : List Nat) :
    read_command_parse_size false bytes_buffer
      = [ReadAction.allocAndRead (from_byte_array (bytes_buffer.take 4))] := by
  simp [read_command_parse_size]

/-- C10: when the read of the 4-byte length or of the frame body completes
with a transport error, the handlers return at once: the size handler
performs no action at all (no allocation, no further read, no callback, no
close, no quorum change), and the body handler only cancels the
connection's timeout timer, never invoking the pending command callback —
the read loop on the connection silently stops. -/
theorem c10_transport_error_stops_read_loop (bytes_buffer buffer : List Nat)
    (bytes_transferred : Nat) :
    read_command_parse_size true bytes_buffer = []
    ∧ read_command_parse_command true buffer bytes_transferred
        = [ReadAction.cancelTimeout] := by
  simp [read_command_parse_size, read_command_parse_command]

/-- C8: every incoming command whose type is not among the three the
dispatcher recognizes (`handshake_start`, `leader_claim`,
`leader_announce`) makes `handle_command` raise `protocol_error` — skipping
the re-issued read — and the surrounding layer absorbs the error by
closing the offending connection and marking the peer dead; the absorbing
handler is total, so the node does not crash. -/
theorem c8_unknown_command_closes_connection (c : Command)
    (h : c.type ≠ CommandType.handshake_start
      ∧ c.type ≠ CommandType.leader_claim
      ∧ c.type ≠ CommandType.leader_announce) :
    handle_command c = Except.error ProtocolError.protocol_error
    ∧ handle_command_caught c
        = [DispatchAction.closeConnection, DispatchAction.markPeerDead] := by
  obtain ⟨t, w⟩ := c
  obtain ⟨h1, h2, h3⟩ := h
  cases t <;> simp_all [handle_command, handle_command_caught]

/-- Witness for `c8_unknown_command_closes_connection` at a concrete
unrecognized command. -/
theorem c8_unknown_command_closes_connection_witness :
    ((⟨CommandType.request_initiate, []⟩ : Command).type
        ≠ CommandType.handshake_start
      ∧ (⟨CommandType.request_initiate, []⟩ : Command).type
          ≠ CommandType.leader_claim
      ∧ (⟨CommandType.request_initiate, []⟩ : Command).type
          ≠ CommandType.leader_announce)
    ∧ handle_command_caught ⟨CommandType.request_initiate, []⟩
        = [DispatchAction.closeConnection, DispatchAction.markPeerDead] :=
  ⟨⟨by decide, by decide, by decide⟩,
   (c8_unknown_command_closes_connection ⟨CommandType.request_initiate, []⟩
      ⟨by decide, by decide, by decide⟩).2⟩

/-- C1 counterexample: with an error result and one retry remaining, when
the backoff timer's wait completes with a cancellation error the promise
is fulfilled zero times — the request's trace arms the retry timer and
then does nothing at all, so "exactly one of reply or error" fails on the
cancellation path. -/
theorem c1_exactly_once_counterexample :
    do_request (fun _ => (some ErrorCode.other, [])) (fun _ => true) 0 1
      = [ClientAction.scheduleRetryTimer 500 0]
    ∧ fulfillments
        (do_request (fun _ => (some ErrorCode.other, [])) (fun _ => true) 0 1)
      = []
    ∧ (fulfillments
        (do_request (fun _ => (some ErrorCode.other, [])) (fun _ => true) 0 1)).length
      ≠ 1 := by
  refine ⟨rfl, rfl, by decide⟩

/-- C1 amended: for every client request, at most one of a reply or an
error is delivered to the caller's one-shot handle, under every
combination of error results and retries-remaining values; and on every
path on which no backoff timer's wait completes with a cancellation error,
exactly one is delivered.  (A cancelled backoff aborts the retry and
leaves the promise unfulfilled.) -/
theorem c1_at_most_once_exactly_once_without_cancel
    (results : Nat → Option ErrorCode × List Nat) (cancelled : Nat → Bool)
    (attempt retries : Nat) :
    (fulfillments (do_request results cancelled attempt retries)).length ≤ 1
    ∧ ((∀ k, cancelled k = false) →
        (fulfillments (do_request results cancelled attempt retries)).length
          = 1) :=
  ⟨fulfillments_do_request_le_one results cancelled attempt retries,
   fun h => fulfillments_do_request_of_no_cancel results cancelled h attempt
     retries⟩

/-- Witness for `c1_at_most_once_exactly_once_without_cancel` on a concrete
run: two attempts erroring, no cancellation, one fulfillment. -/
theorem c1_at_most_once_exactly_once_without_cancel_witness :
    (fulfillments
        (do_request (fun _ => (some ErrorCode.other, [])) (fun _ => false) 0 2)).length
      ≤ 1
    ∧ (fulfillments
        (do_request (fun _ => (some ErrorCode.other, [])) (fun _ => false) 0 2)).length
      = 1 :=
  ⟨(c1_at_most_once_exactly_once_without_cancel
      (fun _ => (some ErrorCode.other, [])) (fun _ => false) 0 2).1,
   (c1_at_most_once_exactly_once_without_cancel
      (fun _ => (some ErrorCode.other, [])) (fun _ => false) 0 2).2
     (fun _ => rfl)⟩

/-- C3: on an error with retries remaining the response handler arms
exactly one 500 ms backoff timer carrying the counter decremented by one;
a cancelled backoff wait aborts the retry (the timer handler does
nothing); on an error with the counter at zero the handler fulfills the
promise with `request_error`; and the per-request trace at an erroring
attempt is exactly the timer action followed by nothing (on cancellation)
or the re-attempt (otherwise). -/
theorem c3_error_retry_backoff (e : ErrorCode) (response : List Nat) (r : Nat) :
    on_response (r + 1) (some e) response
      = ClientAction.scheduleRetryTimer 500 r
    ∧ on_timer true r = none
    ∧ on_timer false r = some r
    ∧ on_response 0 (some e) response
        = ClientAction.fulfill Fulfillment.set_exception_request_error
    ∧ ∀ (results : Nat → Option ErrorCode × List Nat) (cancelled : Nat → Bool)
        (attempt : Nat),
        (results attempt).1 = some e →
          do_request results cancelled attempt (r + 1)
            = ClientAction.scheduleRetryTimer 500 r ::
                (if cancelled attempt then []
                 else do_request results cancelled (attempt + 1) r) := by
  refine ⟨by simp [on_response], rfl, rfl, by simp [on_response], ?_⟩
  intro results cancelled attempt h
  rw [do_request_succ, h]
  rcases hc : cancelled attempt with _ | _ <;> simp [hc]

/-- Witness for `c3_error_retry_backoff` at a concrete erroring run. -/
theorem c3_error_retry_backoff_witness :
    on_response 1 (some ErrorCode.other) []
      = ClientAction.scheduleRetryTimer 500 0
    ∧ do_request (fun _ => (some ErrorCode.other, [])) (fun _ => false) 0 1
        = ClientAction.scheduleRetryTimer 500 0 ::
            (if (fun _ : Nat => false) 0 then []
             else do_request (fun _ => (some ErrorCode.other, [])) (fun _ => false) 1 0) :=
  ⟨(c3_error_retry_backoff ErrorCode.other [] 0).1,
   (c3_error_retry_backoff ErrorCode.other [] 0).2.2.2.2
     (fun _ => (some ErrorCode.other, [])) (fun _ => false) 0 rfl⟩

/-- C4 evaluated at the failing input: when the dispatch reports that the
quorum is not ready (`no_leader`) to the response handler of a request with
the default three retries, the handler schedules a 500 ms retry instead of
fulfilling immediately, and the run ends by fulfilling `request_error`;
`not_ready` is never delivered through the promise.  This contradicts the
claim (and the expectation of `src/test/connection_close1.cpp`, line 126,
that `send ().get ()` raises `not_ready`). -/
theorem c4_not_ready_is_retried_then_request_error :
    on_response 3 (some ErrorCode.no_leader) []
      = ClientAction.scheduleRetryTimer 500 2
    ∧ fulfillments
        (do_request (fun _ => (some ErrorCode.no_leader, [])) (fun _ => false) 0 3)
      = [Fulfillment.set_exception_request_error]
    ∧ Fulfillment.set_exception_not_ready ∉
        fulfillments
          (do_request (fun _ => (some ErrorCode.no_leader, [])) (fun _ => false) 0 3) := by
  refine ⟨rfl, rfl, by decide⟩

/-- C5: every heartbeat tick performs, in program order: the handshake
sweep first; then, exactly when `needs_new_leader ()` holds, `reset_state
()` immediately followed by the election start; then, exactly when
`we_are_the_leader ()` holds on the (possibly reset) quorum state, the
leadership re-announcement; and finally the arming of the next tick one
`heartbeat_interval` later. -/
theorem c5_heartbeat_tick_order (q : QuorumState) :
    (heartbeat q).1 =
      [HeartbeatAction.startHandshake]
        ++ (if q.needs_new_leader then
              [HeartbeatAction.resetState, HeartbeatAction.startElection]
            else [])
        ++ (if (heartbeat q).2.we_are_the_leader then
              [HeartbeatAction.announceLeadership]
            else [])
        ++ [HeartbeatAction.scheduleNextTick heartbeat_interval]
    ∧ (heartbeat q).2 = (if q.needs_new_leader then reset_state q else q) := by
  by_cases h : q.needs_new_leader <;> simp [heartbeat, h]

/-- C6: a `write` arriving while a previous write is in flight (the
outbound buffer non-empty) only appends the message to the per-connection
buffer, and over any event sequence of writes and completions the bytes
the peer has observed followed by the still-buffered bytes are exactly the
written messages concatenated in call order — the peer observes all
written bytes in the order the `write` calls were made. -/
theorem c6_writes_append_and_flush_in_order (events : List ConnEvent)
    (h : ∀ m ∈ written_messages events, m ≠ []) :
    (∀ (s : ConnState) (message : List Nat),
        s.write_buffer.isEmpty = false →
          tcp_write s message
            = { s with write_buffer := s.write_buffer ++ message })
    ∧ (conn_run events).sent ++ (conn_run events).write_buffer
        = (written_messages events).flatten := by
  refine ⟨?_, ?_⟩
  · intro s message hbuf
    simp [tcp_write, hbuf]
  · have hrun := conn_run_foldl_inv events conn_init conn_inv_init h
    simpa [conn_run, conn_init] using hrun.2

/-- Witness for `c6_writes_append_and_flush_in_order`: a concrete trace
with an overlapping write, and a concrete buffered-append step. -/
theorem c6_writes_append_and_flush_in_order_witness :
    tcp_write ⟨[1], [1], []⟩ [2] = ⟨[1, 2], [1], []⟩
    ∧ (conn_run
        [ConnEvent.write [1, 2], ConnEvent.write [3], ConnEvent.complete 2,
         ConnEvent.complete 1]).sent ++
        (conn_run
          [ConnEvent.write [1, 2], ConnEvent.write [3], ConnEvent.complete 2,
           ConnEvent.complete 1]).write_buffer
      = [[1, 2], [3]].flatten :=
  ⟨(c6_writes_append_and_flush_in_order
      [ConnEvent.write [1, 2], ConnEvent.write [3], ConnEvent.complete 2,
       ConnEvent.complete 1] (by decide)).1 ⟨[1], [1], []⟩ [2] rfl,
   by
     have hflat := (c6_writes_append_and_flush_in_order
       [ConnEvent.write [1, 2], ConnEvent.write [3], ConnEvent.complete 2,
        ConnEvent.complete 1] (by decide)).2
     simpa [written_messages] using hflat⟩

/-- C9: every connection has at most one asynchronous write outstanding at
any time: over any event sequence the list of outstanding `async_write`
operations never exceeds one element, and a `write` call finding the
buffer non-empty initiates no new `async_write` (the outstanding set is
unchanged). -/
theorem c9_at_most_one_outstanding_write (events : List ConnEvent)
    (h : ∀ m ∈ written_messages events, m ≠ []) :
    (conn_run events).pending.length ≤ 1
    ∧ ∀ (s : ConnState) (message : List Nat),
        s.write_buffer.isEmpty = false →
          (tcp_write s message).pending = s.pending := by
  refine ⟨?_, ?_⟩
  · exact conn_inv_pending_le_one _
      (conn_run_foldl_inv events conn_init conn_inv_init h).1
  · intro s message hbuf
    simp [tcp_write, hbuf]

/-- Witness for `c9_at_most_one_outstanding_write` on a concrete trace. -/
theorem c9_at_most_one_outstanding_write_witness :
    (conn_run [ConnEvent.write [7], ConnEvent.write [8]]).pending.length ≤ 1
    ∧ (tcp_write ⟨[7], [1], []⟩ [8]).pending = (⟨[7], [1], []⟩ : ConnState).pending :=
  ⟨(c9_at_most_one_outstanding_write
      [ConnEvent.write [7], ConnEvent.write [8]] (by decide)).1,
   (c9_at_most_one_outstanding_write
      [ConnEvent.write [7], ConnEvent.write [8]] (by decide)).2
     ⟨[7], [1], []⟩ [8] rfl⟩

end LibPaxos
